import Mathlib

/-!
# Verification of the cockpit-wicked core against its specification

This file embeds, as executable Lean definitions, the parts of the
cockpit-wicked source that the specification claims talk about:

* the ifroute file codec (`IfrouteParser.parse` / `IfrouteParser.stringify`
  and the device defaulting of `IfrouteFile.read`), embedded at the level
  of character lists;
* the sysconfig encoder (`connectionToSysconfig` and its helpers from the
  wicked files module), embedded as insertion-ordered write lists of
  key/value pairs;
* the reducer `networkReducer` of the NetworkContext module (the arms the
  claims touch), embedded as a partial state transformer where `none`
  models a thrown TypeError;
* the optimistic coordinator operations `addConnection`, `updateConnection`
  and `deleteConnection` of the NetworkContext module, embedded as functions
  of the injected backend promise outcomes that return the list of
  dispatched actions together with the outcome of the returned promise;
* the `sanitize` address-list cleanup of the IP settings form.

Strings manipulated character by character (route files) are modelled as
`List Char`; the character classes of the JavaScript regular expressions
are modelled over ASCII.
-/

/-! ## Route file codec (IfrouteParser / IfrouteFile)

`IfrouteParser.parse` begins with
`content.replace(/[ |\t]+/g, ' ')`: note that the character class contains
a literal pipe, so runs of spaces, pipes and tabs are all collapsed to a
single space (the comment above that line in the source says only
"multiple spaces and tabs").  The text is then split on newlines, each
line is trimmed, blank lines and lines starting with `#` are skipped, the
line is split at every single whitespace character, and a literal `-`
column becomes an absent field.
-/

/-- The character class `[ |\t]` of the collapsing regular expression:
space, literal pipe, tab. -/
def isSep (c : Char) : Bool :=
  c == ' ' || c == '|' || c == '\t'

/-- JavaScript `\s` (and the `trim` whitespace class), restricted to ASCII:
space, tab, newline, carriage return, vertical tab, form feed. -/
def isWS (c : Char) : Bool :=
  c == ' ' || c == '\t' || c == '\n' || c == '\r' || c == '\x0b' || c == '\x0c'

/-- `content.replace(/[ |\t]+/g, ' ')` as a character-by-character state
machine: `prev` records whether the previous character belonged to the
class (in which case the current class character extends the same run and
produces no output). -/
def collapseAux (prev : Bool) : List Char → List Char
  | [] => []
  | c :: cs =>
    if isSep c then
      if prev then collapseAux true cs else ' ' :: collapseAux true cs
    else
      c :: collapseAux false cs

/-- `text.split(/\n/)`: split at every newline, keeping empty segments. -/
def splitLines : List Char → List (List Char)
  | [] => [[]]
  | c :: cs =>
    if c = '\n' then
      [] :: splitLines cs
    else
      match splitLines cs with
      | [] => [[c]]
      | t :: ts => (c :: t) :: ts

/-- JavaScript `String.prototype.trim`: drop whitespace from both ends. -/
def trimWS (l : List Char) : List Char :=
  ((l.dropWhile isWS).reverse.dropWhile isWS).reverse

/-- `line.split(/\s/)`: split at every single whitespace character,
keeping empty segments. -/
def splitEvery : List Char → List (List Char)
  | [] => [[]]
  | c :: cs =>
    if isWS c then
      [] :: splitEvery cs
    else
      match splitEvery cs with
      | [] => [[c]]
      | t :: ts => (c :: t) :: ts

/-- A parsed route line.  `none` models a JavaScript `undefined` field. -/
structure Route where
  destination : Option (List Char)
  gateway : Option (List Char)
  netmask : Option (List Char)
  device : Option (List Char)
  options : Option (List Char)
deriving DecidableEq

/-- `columns[i]` after `columns.map(c => c !== "-" ? c : undefined)`:
out-of-range indices give `undefined`. -/
def colAt (cs : List (Option (List Char))) (i : Nat) : Option (List Char) :=
  (cs.get? i).getD none

/-- The body of the `reduce` inside `IfrouteParser.parse`, for one line:
trim, skip comments and blanks, split on whitespace, map `-` to absent,
read the five positional columns. -/
def lineToRoute (line : List Char) : Option Route :=
  let l := trimWS line
  if l.head? = some '#' then none
  else if l = [] then none
  else
    let cs := (splitEvery l).map (fun t => if t = ['-'] then none else some t)
    some ⟨colAt cs 0, colAt cs 1, colAt cs 2, colAt cs 3, colAt cs 4⟩

/-- `IfrouteParser.parse`: collapse the whole content, split on newlines,
and accumulate one route per retained line (the `reduce` pushes onto an
accumulator, i.e. appends). -/
def parseRoutes (text : List Char) : List Route :=
  (splitLines (collapseAux false text)).foldl
    (fun routes line =>
      match lineToRoute line with
      | none => routes
      | some r => routes ++ [r])
    []

/-- JavaScript `route.device ||= device`: the assignment also fires when
the current value is the empty string (falsy). -/
def jsOrAssign (v : Option (List Char)) (d : List Char) : Option (List Char) :=
  match v with
  | none => some d
  | some s => if s = [] then some d else some s

/-- `IfrouteFile.read`: parse, and when the file is interface-scoped
(`device` present), default each route's device to the interface name. -/
def decodeRoutes (device : Option (List Char)) (text : List Char) : List Route :=
  match device with
  | none => parseRoutes text
  | some d => (parseRoutes text).map (fun r => { r with device := jsOrAssign r.device d })

/-- `v => v || "-"` over an optional column: `undefined` and the empty
string (both falsy) become the placeholder. -/
def jsOrDash (v : Option (List Char)) : List Char :=
  match v with
  | none => ['-']
  | some s => if s = [] then ['-'] else s

/-- `Array.prototype.join(sep)` on a list of character lists. -/
def joinWith (sep : List Char) : List (List Char) → List Char
  | [] => []
  | [l] => l
  | l :: ls => l ++ sep ++ joinWith sep ls

/-- One line of `IfrouteParser.stringify`: the five columns joined by a
tab, with the device column always written as the placeholder (the device
is determined by the target file, not written inline). -/
def encLine (r : Route) : List Char :=
  joinWith ['\t']
    ([r.destination, r.gateway, r.netmask, none, r.options].map jsOrDash)

/-- `IfrouteParser.stringify`: one line per route, joined by newlines
(no trailing newline). -/
def encodeRoutes (rs : List Route) : List Char :=
  joinWith ['\n'] (rs.map encLine)

/-- Whether a trimmed line is retained by the parser: not a comment,
not blank. -/
def keepLine (l : List Char) : Bool :=
  if l.head? = some '#' then false else if l = [] then false else true

/-- The route built from a retained (already trimmed) line: split at every
whitespace character, map `-` columns to absent, read the five positional
columns (missing columns are absent, extra columns are ignored). -/
def routeOfLine (l : List Char) : Route :=
  let cs := (splitEvery l).map (fun t => if t = ['-'] then none else some t)
  ⟨colAt cs 0, colAt cs 1, colAt cs 2, colAt cs 3, colAt cs 4⟩

/-- The lines of the input that the parser retains: collapse, split on
newlines, trim, keep the non-blank non-comment lines. -/
def keptLines (text : List Char) : List (List Char) :=
  ((splitLines (collapseAux false text)).map trimWS).filter keepLine

/-- The device-defaulting step of `IfrouteFile.read` for a single route. -/
def scopeRoute (device : Option (List Char)) (r : Route) : Route :=
  match device with
  | none => r
  | some d => { r with device := jsOrAssign r.device d }

/-- A character that survives the codec pipeline unchanged: not collapsed
(no space, pipe, tab), not a line or column separator (no whitespace at
all). -/
def okChar (c : Char) : Bool :=
  !(isWS c || c == '|')

/-- A well-formed optional column value: either absent, or a non-empty
token that is not the placeholder `-` and contains only surviving
characters. -/
def okTok (v : Option (List Char)) : Prop :=
  match v with
  | none => True
  | some t => t ≠ [] ∧ t ≠ ['-'] ∧ ∀ c ∈ t, okChar c = true

instance (v : Option (List Char)) : Decidable (okTok v) := by
  cases v with
  | none => exact .isTrue trivial
  | some t => exact inferInstanceAs (Decidable (_ ∧ _ ∧ _))

/-- The destination column must not begin a comment. -/
def noHash (v : Option (List Char)) : Prop :=
  match v with
  | none => True
  | some t => t.head? ≠ some '#'

instance (v : Option (List Char)) : Decidable (noHash v) := by
  cases v with
  | none => exact .isTrue trivial
  | some t => exact inferInstanceAs (Decidable (_ ≠ _))

/-- A route that survives a decode/encode round trip under the given
interface scope: all written columns are well-formed tokens and the
device is exactly what the scope would reconstruct (absent when
unscoped, the interface name when scoped). -/
def RouteOK (device : Option (List Char)) (r : Route) : Prop :=
  okTok r.destination ∧ noHash r.destination ∧ okTok r.gateway ∧
    okTok r.netmask ∧ okTok r.options ∧ r.device = device

instance (device : Option (List Char)) (r : Route) : Decidable (RouteOK device r) :=
  inferInstanceAs (Decidable (_ ∧ _ ∧ _ ∧ _ ∧ _ ∧ _))


/-! ## Sysconfig interface-configuration encoder (wicked files module)

`connectionToSysconfig` builds one flat key/value object from a
Connection.  JavaScript objects built by spreading are modelled as
insertion-ordered write lists of `(key, value)` pairs; all keys produced
here are pairwise distinct, so the write list is also the resulting
mapping.  A `none` value models a JavaScript `undefined` (such keys are
later omitted by the sysconfig serializer).
-/

/-- An address entry of a per-family address list (the fields of the
model's AddressConfig that the encoder and the sanitizer read).  Both
fields can be `undefined` in JavaScript, hence `Option`. -/
structure AddressConfig where
  «local» : Option String
  label : Option String
deriving DecidableEq

/-- Per-family (`ipv4`/`ipv6`) settings of a Connection. -/
structure IpSettings where
  bootProto : String
  addresses : List AddressConfig
deriving DecidableEq

/-- Bridge-specific payload. -/
structure BridgeSettings where
  ports : List String
deriving DecidableEq

/-- Bond-specific payload. -/
structure BondSettings where
  interfaces : List String
  mode : String
  options : String
deriving DecidableEq

/-- Vlan-specific payload. -/
structure VlanSettings where
  vlanId : String
  parentDevice : String
deriving DecidableEq

/-- The Connection fields read by the encoder. -/
structure Connection where
  id : Nat
  name : String
  startMode : String
  virtual : Bool
  «exists» : Bool
  ipv4 : IpSettings
  ipv6 : IpSettings
  bridge : Option BridgeSettings
  bond : Option BondSettings
  vlan : Option VlanSettings
deriving DecidableEq

/-! Modelled from the spec: the constant values of the model/bootProtocol
module, which is not among the provided sources (only its importers are);
the spec lists the boot-protocol values {dhcp, dhcp4, dhcp6, static,
none}. -/

namespace bootProtocol

def DHCP : String := "dhcp"

def DHCP4 : String := "dhcp4"

def DHCP6 : String := "dhcp6"

def STATIC : String := "static"

def NONE : String := "none"

end bootProtocol

/-- One write of the constructed object. -/
abbrev SysconfigEntry := String × Option String

/-- `bootProtoFor` of the wicked files module: dhcp when both families
are dhcp, else dhcp4/dhcp6 when one is, else static when either family
has addresses, else none. -/
def bootProtoFor (c : Connection) : String :=
  if c.ipv4.bootProto = bootProtocol.DHCP ∧ c.ipv6.bootProto = bootProtocol.DHCP then
    bootProtocol.DHCP
  else if c.ipv4.bootProto = bootProtocol.DHCP then bootProtocol.DHCP4
  else if c.ipv6.bootProto = bootProtocol.DHCP then bootProtocol.DHCP6
  else if c.ipv4.addresses.length > 0 ∨ c.ipv6.addresses.length > 0 then bootProtocol.STATIC
  else bootProtocol.NONE

/-- The `reduce` of `ipToSysconfig`, with the element index `n` made
explicit: each address writes `IPADDR` with the suffix for
`n + initialIndex` (empty at index 0, `_k` at index `k`), and a `LABEL`
key with the same suffix when its label (defaulted to the empty string)
is non-empty. -/
def ipToSysconfigAux (initialIndex : Nat) : Nat → List AddressConfig → List SysconfigEntry
  | _, [] => []
  | n, address :: rest =>
    let addressIndex := n + initialIndex
    let label := address.label.getD ""
    let suffix := if addressIndex = 0 then "" else "_" ++ toString addressIndex
    (("IPADDR" ++ suffix, address.«local») ::
      (if label ≠ "" then [("LABEL" ++ suffix, some label)] else []))
      ++ ipToSysconfigAux initialIndex (n + 1) rest

/-- `ipToSysconfig(ip, initialIndex)`. -/
def ipToSysconfig (ip : IpSettings) (initialIndex : Nat) : List SysconfigEntry :=
  ipToSysconfigAux initialIndex 0 ip.addresses

/-- `addressesToSysconfig`: the IPv4 addresses start at index 0, the IPv6
addresses start at the IPv4 address count. -/
def addressesToSysconfig (c : Connection) : List SysconfigEntry :=
  ipToSysconfig c.ipv4 0 ++ ipToSysconfig c.ipv6 c.ipv4.addresses.length

/-- `bridgeToSysconfig`. -/
def bridgeToSysconfig : Option BridgeSettings → List SysconfigEntry
  | none => []
  | some b => [("BRIDGE", some "yes"), ("BRIDGE_PORTS", some (String.intercalate " " b.ports))]

/-- The slave-list `reduce` of `bondToSysconfig`. -/
def bondSlavesAux : Nat → List String → List SysconfigEntry
  | _, [] => []
  | n, iface :: rest => ("BONDING_SLAVE_" ++ toString n, some iface) :: bondSlavesAux (n + 1) rest

/-- `bondToSysconfig`. -/
def bondToSysconfig : Option BondSettings → List SysconfigEntry
  | none => []
  | some b =>
    ("BONDING_MASTER", some "yes") ::
      ("BONDING_MODULE_OPTS", some ("mode=" ++ b.mode ++ " " ++ b.options)) ::
      bondSlavesAux 0 b.interfaces

/-- `vlanToSysconfig`. -/
def vlanToSysconfig : Option VlanSettings → List SysconfigEntry
  | none => []
  | some v => [("VLAN_ID", some v.vlanId), ("ETHERDEVICE", some v.parentDevice)]

/-- `connectionToSysconfig`: NAME, BOOTPROTO and STARTMODE followed by the
flattened address keys and the type-specific blocks, in spread order. -/
def connectionToSysconfig (c : Connection) : List SysconfigEntry :=
  ("NAME", some c.name) :: ("BOOTPROTO", some (bootProtoFor c)) ::
    ("STARTMODE", some c.startMode) ::
    (addressesToSysconfig c ++ bridgeToSysconfig c.bridge ++ bondToSysconfig c.bond
      ++ vlanToSysconfig c.vlan)

/-- Specification-side numbering rule: the key suffix for a flattened
address index — nothing at index 0, `_k` at index `k > 0`. -/
def suffixFor (k : Nat) : String :=
  if k = 0 then "" else "_" ++ toString k

/-- Specification-side entries for one address at flattened index `k`:
an `IPADDR` key with the suffix for `k`, and a `LABEL` key with the same
suffix exactly when the label is present and non-empty. -/
def specAddressEntry (k : Nat) (a : AddressConfig) : List SysconfigEntry :=
  ("IPADDR" ++ suffixFor k, a.«local») ::
    (if a.label.getD "" ≠ "" then [("LABEL" ++ suffixFor k, some (a.label.getD ""))] else [])

/-- Specification-side flattening of an address list whose first element
has flattened index `i`: consecutive addresses get consecutive indices. -/
def specAddressEntries (i : Nat) : List AddressConfig → List SysconfigEntry
  | [] => []
  | a :: rest => specAddressEntry i a ++ specAddressEntries (i + 1) rest

/-- Specification-side boot protocol, worded as in the claim: dhcp when
both families are dhcp; dhcp4 when only the ipv4 family is dhcp; dhcp6
when only the ipv6 family is dhcp; static when neither family is dhcp and
at least one family has a non-empty address list; none otherwise. -/
def specBootProto (c : Connection) : String :=
  if c.ipv4.bootProto = bootProtocol.DHCP ∧ c.ipv6.bootProto = bootProtocol.DHCP then
    bootProtocol.DHCP
  else if c.ipv4.bootProto = bootProtocol.DHCP ∧ c.ipv6.bootProto ≠ bootProtocol.DHCP then
    bootProtocol.DHCP4
  else if c.ipv6.bootProto = bootProtocol.DHCP ∧ c.ipv4.bootProto ≠ bootProtocol.DHCP then
    bootProtocol.DHCP6
  else if c.ipv4.bootProto ≠ bootProtocol.DHCP ∧ c.ipv6.bootProto ≠ bootProtocol.DHCP ∧
      (c.ipv4.addresses ≠ [] ∨ c.ipv6.addresses ≠ []) then
    bootProtocol.STATIC
  else bootProtocol.NONE


/-! ## ReconciliationStore reducer (`networkReducer` of the NetworkContext)

The id-keyed JavaScript objects of the store snapshot are modelled as
association lists.  JavaScript enumerates integer-like keys in ascending
numeric order; the theorems below are stated so that the enumeration
order of `objValues` is irrelevant (they hypothesise at most one
interface with the looked-up name, or none).  The reducer returns
`Option`: `none` models a thrown TypeError (reading a property of
`undefined`). -/

/-- The Interface fields the modelled reducer arms read or write. -/
structure Interface where
  id : Nat
  name : String
  error : Option String
deriving DecidableEq

/-- The store snapshot `{ interfaces, connections, routes }`. -/
structure NetworkState where
  interfaces : List (Nat × Interface)
  connections : List (Nat × Connection)
  routes : List (Nat × Route)
deriving DecidableEq

/-- `{ ...m, [k]: v }`: replace the value of an existing key in place,
append a fresh key. -/
def objSet {β : Type} (m : List (Nat × β)) (k : Nat) (v : β) : List (Nat × β) :=
  if m.any (fun p => p.1 == k) then m.map (fun p => if p.1 = k then (k, v) else p)
  else m ++ [(k, v)]

/-- `const { [k]: _drop, ...rest } = m`: remove the key. -/
def objDelete {β : Type} (m : List (Nat × β)) (k : Nat) : List (Nat × β) :=
  m.filter (fun p => p.1 != k)

/-- `Object.values(m)`. -/
def objValues {β : Type} (m : List (Nat × β)) : List β :=
  m.map Prod.snd

/-- The reducer transitions the claims refer to.  The remaining arms
(`SET_*`, `ADD_CONNECTION`, `UPDATE_ROUTES`, `UPDATE_INTERFACE`) are not
modelled: no claim depends on them and they run payloads through factory
modules that are not among the provided sources. -/
inductive ReducerAction where
  | updateConnection (conn : Connection)
  | deleteConnection (conn : Connection)
  | connectionError (conn : Connection) (message : String)
deriving DecidableEq

/-- `networkReducer`, on the modelled arms.

* `DELETE_CONNECTION` removes the connection by id; for a non-virtual
  connection the interfaces are left untouched; for a virtual one the
  interface found by name is removed (`iface.id` throws when the lookup
  found nothing).
* `UPDATE_CONNECTION` destructures the interface found by name — a
  TypeError when there is none — drops its `error` property, and stores
  the payload connection by id.
* `CONNECTION_ERROR` indexes by `iface.id` of the interface found by
  name — a TypeError when there is none — and sets its `error`. -/
def networkReducer (state : NetworkState) : ReducerAction → Option NetworkState
  | .deleteConnection conn =>
    let nextConnections := objDelete state.connections conn.id
    if !conn.virtual then some { state with connections := nextConnections }
    else
      match (objValues state.interfaces).find? (fun i => i.name == conn.name) with
      | none => none
      | some iface =>
        some { state with
          interfaces := objDelete state.interfaces iface.id,
          connections := nextConnections }
  | .updateConnection conn =>
    match (objValues state.interfaces).find? (fun i => i.name == conn.name) with
    | none => none
    | some iface =>
      some { state with
        interfaces := objSet state.interfaces iface.id { iface with error := none },
        connections := objSet state.connections conn.id conn }
  | .connectionError conn message =>
    match (objValues state.interfaces).find? (fun i => i.name == conn.name) with
    | none => none
    | some iface =>
      some { state with
        interfaces := objSet state.interfaces iface.id { iface with error := some message } }

/-! ## SyncCoordinator operations (NetworkContext)

Each user-initiated operation is modelled as a function of the injected
backend promise outcomes.  It returns the list of actions it dispatches
together with the settlement of the promise it returns.  `addConnection`
and `updateConnection` are `async` functions whose `try`/`catch` wraps
`await`ed backend calls, so backend rejections are caught there.
`deleteConnection` is NOT `async`: its `try`/`catch` guards only
synchronous throws, and the backend calls return promises without
throwing synchronously, so an asynchronous rejection is never caught —
no `CONNECTION_ERROR` is dispatched and the returned promise (the
`removeConnection`/`setDownConnection` chain) rejects; even on success
that promise resolves to the set-down call's value, not to the
Connection. -/

/-- An action dispatched by a coordinator operation. -/
inductive DispatchedAction where
  | addConnection (conn : Connection)
  | updateConnection (conn : Connection)
  | deleteConnection (conn : Connection)
  | connectionError (conn : Connection) (message : String)
deriving DecidableEq

/-- `addConnection(dispatch, attrs)`, as a function of the connection
built by the factory, of `attrs.exists`, and of the two backend call
outcomes. -/
def addConnectionRun (addedConn : Connection) (attrsExists : Bool)
    (addResult reloadResult : Except String Unit) :
    List DispatchedAction × Except String Connection :=
  match addResult with
  | .error e => ([.addConnection addedConn, .connectionError addedConn e], .ok addedConn)
  | .ok _ =>
    let updates := if attrsExists then []
      else [DispatchedAction.updateConnection { addedConn with «exists» := true }]
    match reloadResult with
    | .error e =>
      ([DispatchedAction.addConnection addedConn] ++ updates
        ++ [.connectionError addedConn e], .ok addedConn)
    | .ok _ => ([DispatchedAction.addConnection addedConn] ++ updates, .ok addedConn)

/-- `updateConnection(dispatch, connection, changes)`, as a function of
the merged connection and of the two backend call outcomes. -/
def updateConnectionRun (updatedConn : Connection)
    (updateResult reloadResult : Except String Unit) :
    List DispatchedAction × Except String Connection :=
  match updateResult with
  | .error e => ([.updateConnection updatedConn, .connectionError updatedConn e], .ok updatedConn)
  | .ok _ =>
    match reloadResult with
    | .error e =>
      ([.updateConnection updatedConn, .connectionError updatedConn e], .ok updatedConn)
    | .ok _ => ([DispatchedAction.updateConnection updatedConn], .ok updatedConn)

/-- `deleteConnection(dispatch, connection)`: dispatches the optimistic
delete, then returns the `removeConnection().then(setDownConnection)`
promise chain; its `try`/`catch` never fires for asynchronous backend
rejections, so the chain's own settlement is the operation's result. -/
def deleteConnectionRun (conn : Connection)
    (removeResult setDownResult : Except String Unit) :
    List DispatchedAction × Except String Unit :=
  ([DispatchedAction.deleteConnection conn],
    match removeResult with
    | .error e => .error e
    | .ok _ => setDownResult)


/-! ## Address-list sanitizer (`sanitize` of the IP settings form) -/

/-- The rejection test of `sanitize`: `addr.local === undefined ||
addr.local.trim() === ""`. -/
def blankLocal (a : AddressConfig) : Bool :=
  match a.«local» with
  | none => true
  | some s => decide (trimWS s.data = [])

/-- The duplicate test of `sanitize`:
`item.local === addr.local && item.label === addr.label`. -/
def samePairB (addr item : AddressConfig) : Bool :=
  decide (item.«local» = addr.«local») && decide (item.label = addr.label)

/-- First index (from `i`) whose element satisfies `p`. -/
def findIdxAux {α : Type} (p : α → Bool) : List α → Nat → Option Nat
  | [], _ => none
  | a :: as, i => if p a then some i else findIdxAux p as (i + 1)

/-- `Array.prototype.findIndex`: the first matching index, `-1` when no
element matches. -/
def jsFindIndex {α : Type} (l : List α) (p : α → Bool) : Int :=
  match findIdxAux p l 0 with
  | some i => (i : Int)
  | none => -1

/-- The filter callback of `sanitize` for the element at index `idx` of
`collection`: reject blank locals, then keep only the first occurrence of
each `(local, label)` pair. -/
def keepAddr (collection : List AddressConfig) (addr : AddressConfig) (idx : Nat) : Bool :=
  if blankLocal addr then false
  else jsFindIndex collection (samePairB addr) == (idx : Int)

/-- `Array.prototype.filter` with the element index made explicit (the
third callback argument, the original collection, stays fixed). -/
def sanitizeAux (collection : List AddressConfig) :
    Nat → List AddressConfig → List AddressConfig
  | _, [] => []
  | i, a :: as =>
    if keepAddr collection a i then a :: sanitizeAux collection (i + 1) as
    else sanitizeAux collection (i + 1) as

/-- `sanitize(addresses)`. -/
def sanitize (addresses : List AddressConfig) : List AddressConfig :=
  sanitizeAux addresses 0 addresses

theorem lineToRoute_eq (line : List Char) :
    lineToRoute line =
      if keepLine (trimWS line) then some (routeOfLine (trimWS line)) else none := by
  by_cases h1 : (trimWS line).head? = some '#' <;>
    by_cases h2 : trimWS line = [] <;>
      simp [lineToRoute, keepLine, routeOfLine, h1, h2]

theorem parseRoutes_foldl (lines : List (List Char)) (acc : List Route) :
    (lines.foldl
      (fun routes line =>
        match lineToRoute line with
        | none => routes
        | some r => routes ++ [r]) acc)
      = acc ++ lines.filterMap lineToRoute := by
  induction lines generalizing acc with
  | nil => simp
  | cons l ls ih =>
    simp only [List.foldl_cons, List.filterMap_cons]
    cases h : lineToRoute l with
    | none => simp [h, ih]
    | some r => simp [h, ih]

theorem filterMap_lineToRoute (lines : List (List Char)) :
    lines.filterMap lineToRoute = ((lines.map trimWS).filter keepLine).map routeOfLine := by
  induction lines with
  | nil => rfl
  | cons l ls ih =>
    simp only [List.filterMap_cons, List.map_cons, List.filter_cons]
    rw [lineToRoute_eq]
    by_cases h : keepLine (trimWS l) <;> simp [h, ih]

theorem parseRoutes_eq (text : List Char) :
    parseRoutes text = (keptLines text).map routeOfLine := by
  rw [parseRoutes, parseRoutes_foldl, filterMap_lineToRoute, keptLines]
  rfl

theorem decodeRoutes_eq (device : Option (List Char)) (text : List Char) :
    decodeRoutes device text = (parseRoutes text).map (scopeRoute device) := by
  cases device with
  | none =>
    show parseRoutes text = (parseRoutes text).map (scopeRoute none)
    rw [show scopeRoute none = fun r => r from rfl, List.map_id']
  | some d => rfl

/-- C3: evaluation of the route decoder.  The claim's own example holds
(the tab-separated five-column line yields exactly one route with absent
device and options, and an interface-scoped read defaults the device),
but the claim's description of the whitespace handling does not: the
regular expression class `[ |\t]` contains a literal pipe, so the line
`a|b` is collapsed to `a b` and parses as two columns (destination `a`,
gateway `b`) instead of the single destination column `a|b` that
"collapses runs of spaces/tabs" would give. -/
theorem c3_collapse_includes_pipe :
    decodeRoutes none ("10.0.0.0\t10.0.0.1\t255.255.255.0\t-\t-\n".toList)
      = [⟨some "10.0.0.0".toList, some "10.0.0.1".toList, some "255.255.255.0".toList,
          none, none⟩]
    ∧ decodeRoutes (some "eth0".toList) ("10.0.0.0\t10.0.0.1\t255.255.255.0\t-\t-\n".toList)
      = [⟨some "10.0.0.0".toList, some "10.0.0.1".toList, some "255.255.255.0".toList,
          some "eth0".toList, none⟩]
    ∧ decodeRoutes none ("a|b\n".toList)
      = [⟨some ['a'], some ['b'], none, none, none⟩] := by
  refine ⟨by decide, by decide, by decide⟩

/-- C5 counterexample: a non-blank, non-comment line with only two
whitespace-separated columns is NOT dropped — it still contributes a
route (with the missing columns absent), so the decoder's output is not
empty as the claim would require. -/
theorem c5_short_line_not_dropped :
    decodeRoutes none ("10.0.0.0 10.0.0.1\n".toList)
      = [⟨some "10.0.0.0".toList, some "10.0.0.1".toList, none, none, none⟩]
    ∧ decodeRoutes none ("10.0.0.0 10.0.0.1\n".toList) ≠ [] := by
  refine ⟨by decide, by decide⟩

/-- C5 (amended): the decoder never raises — it is total — and every
retained (non-blank, non-comment) line produces exactly one route
regardless of its column count: missing columns become absent fields and
columns beyond the fifth are ignored; the decoder's output is exactly the
map of the column reader over the retained lines, with the interface
scope's device defaulting applied. -/
theorem c5_route_per_retained_line (device : Option (List Char)) (text : List Char) :
    decodeRoutes device text
      = (keptLines text).map (fun l => scopeRoute device (routeOfLine l)) := by
  rw [decodeRoutes_eq, parseRoutes_eq, List.map_map]
  rfl


theorem collapseAux_cons_nosep (b : Bool) (c : Char) (l : List Char) (hc : isSep c = false) :
    collapseAux b (c :: l) = c :: collapseAux false l := by
  simp [collapseAux, hc]

theorem collapseAux_cons_sep_false (c : Char) (l : List Char) (hc : isSep c = true) :
    collapseAux false (c :: l) = ' ' :: collapseAux true l := by
  simp [collapseAux, hc]

theorem collapseAux_cons_sep_true (c : Char) (l : List Char) (hc : isSep c = true) :
    collapseAux true (c :: l) = collapseAux true l := by
  simp [collapseAux, hc]

theorem collapseAux_token : ∀ (t : List Char), t ≠ [] → (∀ c ∈ t, isSep c = false) →
    ∀ (b : Bool) (rest : List Char), collapseAux b (t ++ rest) = t ++ collapseAux false rest
  | [], ht, _, _, _ => absurd rfl ht
  | [x], _, h, b, rest => by
    rw [List.singleton_append, collapseAux_cons_nosep b x rest (h x (by simp)),
      List.singleton_append]
  | x :: y :: ys, _, h, b, rest => by
    rw [List.cons_append, collapseAux_cons_nosep b x _ (h x (by simp)),
      collapseAux_token (y :: ys) (by simp) (fun c hc => h c (List.mem_cons_of_mem x hc))
        false rest]
    simp

theorem collapseAux_newline : ∀ (A : List Char) (b : Bool) (B : List Char),
    collapseAux b (A ++ '\n' :: B) = collapseAux b A ++ '\n' :: collapseAux false B
  | [], b, B => by
    rw [List.nil_append, collapseAux_cons_nosep b '\n' B rfl]
    rfl
  | c :: cs, b, B => by
    rw [List.cons_append]
    by_cases hc : isSep c = true
    · cases b
      · rw [collapseAux_cons_sep_false c _ hc, collapseAux_cons_sep_false c cs hc,
          collapseAux_newline cs true B, List.cons_append]
      · rw [collapseAux_cons_sep_true c _ hc, collapseAux_cons_sep_true c cs hc,
          collapseAux_newline cs true B]
    · have hc' : isSep c = false := by revert hc; cases isSep c <;> simp
      rw [collapseAux_cons_nosep b c _ hc', collapseAux_cons_nosep b c cs hc',
        collapseAux_newline cs false B, List.cons_append]

theorem splitLines_cons_other (c : Char) (cs : List Char) (hc : c ≠ '\n')
    (t : List Char) (ts : List (List Char)) (h : splitLines cs = t :: ts) :
    splitLines (c :: cs) = (c :: t) :: ts := by
  simp only [splitLines, if_neg hc, h]

theorem splitLines_ne_nil : ∀ (l : List Char), splitLines l ≠ []
  | [] => by simp [splitLines]
  | c :: cs => by
    by_cases hc : c = '\n'
    · subst hc; simp [splitLines]
    · cases h : splitLines cs with
      | nil => exact absurd h (splitLines_ne_nil cs)
      | cons t ts => rw [splitLines_cons_other c cs hc t ts h]; simp

theorem splitLines_append (l : List Char) (h : ∀ c ∈ l, c ≠ '\n') (rest : List Char) :
    splitLines (l ++ '\n' :: rest) = l :: splitLines rest := by
  induction l with
  | nil =>
    rw [List.nil_append]
    simp [splitLines]
  | cons c cs ih =>
    rw [List.cons_append]
    exact splitLines_cons_other c _ (h c (by simp)) cs (splitLines rest)
      (ih (fun d hd => h d (List.mem_cons_of_mem c hd)))

theorem splitLines_no_newline (l : List Char) (h : ∀ c ∈ l, c ≠ '\n') :
    splitLines l = [l] := by
  induction l with
  | nil => rfl
  | cons c cs ih =>
    exact splitLines_cons_other c cs (h c (by simp)) cs []
      (ih (fun d hd => h d (List.mem_cons_of_mem c hd)))

theorem splitEvery_cons_space (cs : List Char) :
    splitEvery (' ' :: cs) = [] :: splitEvery cs := by
  simp [splitEvery, show isWS ' ' = true from rfl]

theorem splitEvery_cons_nows (c : Char) (cs : List Char) (hc : isWS c = false)
    (t : List Char) (ts : List (List Char)) (h : splitEvery cs = t :: ts) :
    splitEvery (c :: cs) = (c :: t) :: ts := by
  simp only [splitEvery, hc, Bool.false_eq_true, if_false, h]

theorem splitEvery_append : ∀ (t : List Char), t ≠ [] → (∀ c ∈ t, isWS c = false) →
    ∀ (rest : List Char), splitEvery (t ++ ' ' :: rest) = t :: splitEvery rest
  | [], ht, _, _ => absurd rfl ht
  | [x], _, h, rest => by
    rw [List.singleton_append]
    exact splitEvery_cons_nows x _ (h x (by simp)) [] (splitEvery rest)
      (splitEvery_cons_space rest)
  | x :: y :: ys, _, h, rest => by
    rw [List.cons_append]
    exact splitEvery_cons_nows x _ (h x (by simp)) (y :: ys) (splitEvery rest)
      (splitEvery_append (y :: ys) (by simp)
        (fun c hc => h c (List.mem_cons_of_mem x hc)) rest)

theorem splitEvery_no_ws : ∀ (t : List Char), t ≠ [] → (∀ c ∈ t, isWS c = false) →
    splitEvery t = [t]
  | [], ht, _ => absurd rfl ht
  | [x], _, h => by
    exact splitEvery_cons_nows x [] (h x (by simp)) [] [] rfl
  | x :: y :: ys, _, h => by
    exact splitEvery_cons_nows x (y :: ys) (h x (by simp)) (y :: ys) []
      (splitEvery_no_ws (y :: ys) (by simp) (fun c hc => h c (List.mem_cons_of_mem x hc)))

theorem dropWhile_isWS_eq_self (l : List Char) (h : ∀ c, l.head? = some c → isWS c = false) :
    l.dropWhile isWS = l := by
  cases l with
  | nil => rfl
  | cons x xs => simp [List.dropWhile_cons, h x rfl]

theorem mem_of_getLast?_eq {α : Type} {l : List α} {a : α} (h : l.getLast? = some a) :
    a ∈ l := by
  obtain ⟨hne, heq⟩ := List.mem_getLast?_eq_getLast (Option.mem_def.mpr h)
  rw [heq]
  exact List.getLast_mem hne

theorem trimWS_eq_self (l : List Char) (h1 : ∀ c, l.head? = some c → isWS c = false)
    (h2 : ∀ c, l.getLast? = some c → isWS c = false) : trimWS l = l := by
  unfold trimWS
  rw [dropWhile_isWS_eq_self l h1]
  rw [dropWhile_isWS_eq_self l.reverse
    (fun c hc => h2 c (by rwa [List.head?_reverse] at hc))]
  exact List.reverse_reverse l

theorem okChar_spec (c : Char) (h : okChar c = true) : isWS c = false ∧ (c == '|') = false := by
  unfold okChar at h
  constructor
  · cases hw : isWS c
    · rfl
    · rw [hw] at h; simp at h
  · cases hp : (c == '|')
    · rfl
    · rw [hp] at h; simp at h

theorem okChar_not_ws (c : Char) (h : okChar c = true) : isWS c = false :=
  (okChar_spec c h).1

theorem okChar_not_sep (c : Char) (h : okChar c = true) : isSep c = false := by
  obtain ⟨hw, hp⟩ := okChar_spec c h
  unfold isWS at hw
  have h1 : (c == ' ') = false := by
    cases hq : (c == ' ')
    · rfl
    · rw [hq] at hw; simp at hw
  have h2 : (c == '\t') = false := by
    cases hq : (c == '\t')
    · rfl
    · rw [hq] at hw; simp at hw
  unfold isSep
  rw [h1, h2, hp]
  rfl

theorem okChar_ne_newline (c : Char) (h : okChar c = true) : c ≠ '\n' := by
  intro e
  subst e
  exact absurd h (by decide)

theorem jsOrDash_ne_nil (v : Option (List Char)) (h : okTok v) : jsOrDash v ≠ [] := by
  cases v with
  | none => simp [jsOrDash]
  | some t =>
    simp only [jsOrDash]
    rw [if_neg h.1]
    exact h.1

theorem jsOrDash_chars (v : Option (List Char)) (h : okTok v) :
    ∀ c ∈ jsOrDash v, okChar c = true := by
  cases v with
  | none =>
    intro c hc
    simp [jsOrDash] at hc
    subst hc
    decide
  | some t =>
    simp only [jsOrDash]
    rw [if_neg h.1]
    exact h.2.2

theorem jsOrDash_inv (v : Option (List Char)) (h : okTok v) :
    (if jsOrDash v = ['-'] then none else some (jsOrDash v)) = v := by
  cases v with
  | none => simp [jsOrDash]
  | some t =>
    simp only [jsOrDash]
    rw [if_neg h.1, if_neg h.2.1]

theorem encLine_eq (r : Route) :
    encLine r = jsOrDash r.destination ++ '\t' :: (jsOrDash r.gateway ++ '\t' ::
      (jsOrDash r.netmask ++ '\t' :: ('-' :: '\t' :: jsOrDash r.options))) := by
  simp [encLine, joinWith, jsOrDash]

theorem collapseAux_token_nil (t : List Char) (ht : t ≠ [])
    (h : ∀ c ∈ t, isSep c = false) (b : Bool) : collapseAux b t = t := by
  have hx := collapseAux_token t ht h b []
  simpa [collapseAux] using hx

theorem collapse_encLine (r : Route) (hd : okTok r.destination) (hg : okTok r.gateway)
    (hn : okTok r.netmask) (ho : okTok r.options) :
    collapseAux false (encLine r) = jsOrDash r.destination ++ ' ' :: (jsOrDash r.gateway ++ ' ' ::
      (jsOrDash r.netmask ++ ' ' :: ('-' :: ' ' :: jsOrDash r.options))) := by
  rw [encLine_eq]
  rw [collapseAux_token _ (jsOrDash_ne_nil _ hd)
    (fun c hc => okChar_not_sep c (jsOrDash_chars _ hd c hc)) false _]
  rw [collapseAux_cons_sep_false '\t' _ (by decide)]
  rw [collapseAux_token _ (jsOrDash_ne_nil _ hg)
    (fun c hc => okChar_not_sep c (jsOrDash_chars _ hg c hc)) true _]
  rw [collapseAux_cons_sep_false '\t' _ (by decide)]
  rw [collapseAux_token _ (jsOrDash_ne_nil _ hn)
    (fun c hc => okChar_not_sep c (jsOrDash_chars _ hn c hc)) true _]
  rw [collapseAux_cons_sep_false '\t' _ (by decide)]
  rw [collapseAux_cons_nosep true '-' _ (by decide)]
  rw [collapseAux_cons_sep_false '\t' _ (by decide)]
  rw [collapseAux_token_nil _ (jsOrDash_ne_nil _ ho)
    (fun c hc => okChar_not_sep c (jsOrDash_chars _ ho c hc)) true]

theorem collapse_encLine_no_newline (r : Route) (hd : okTok r.destination)
    (hg : okTok r.gateway) (hn : okTok r.netmask) (ho : okTok r.options) :
    ∀ c ∈ collapseAux false (encLine r), c ≠ '\n' := by
  rw [collapse_encLine r hd hg hn ho]
  intro c hc
  simp only [List.mem_append, List.mem_cons] at hc
  rcases hc with h1 | rfl | h2 | rfl | h3 | rfl | rfl | rfl | h5
  · exact okChar_ne_newline c (jsOrDash_chars _ hd c h1)
  · decide
  · exact okChar_ne_newline c (jsOrDash_chars _ hg c h2)
  · decide
  · exact okChar_ne_newline c (jsOrDash_chars _ hn c h3)
  · decide
  · decide
  · decide
  · exact okChar_ne_newline c (jsOrDash_chars _ ho c h5)

theorem lineToRoute_encLine (r : Route) (hd : okTok r.destination) (hh : noHash r.destination)
    (hg : okTok r.gateway) (hn : okTok r.netmask) (ho : okTok r.options) :
    lineToRoute (collapseAux false (encLine r))
      = some ⟨r.destination, r.gateway, r.netmask, none, r.options⟩ := by
  rw [collapse_encLine r hd hg hn ho]
  have hne1 : jsOrDash r.destination ≠ [] := jsOrDash_ne_nil _ hd
  have hne2 : jsOrDash r.gateway ≠ [] := jsOrDash_ne_nil _ hg
  have hne3 : jsOrDash r.netmask ≠ [] := jsOrDash_ne_nil _ hn
  have hne5 : jsOrDash r.options ≠ [] := jsOrDash_ne_nil _ ho
  have hws1 : ∀ c ∈ jsOrDash r.destination, isWS c = false :=
    fun c hc => okChar_not_ws c (jsOrDash_chars _ hd c hc)
  have hws2 : ∀ c ∈ jsOrDash r.gateway, isWS c = false :=
    fun c hc => okChar_not_ws c (jsOrDash_chars _ hg c hc)
  have hws3 : ∀ c ∈ jsOrDash r.netmask, isWS c = false :=
    fun c hc => okChar_not_ws c (jsOrDash_chars _ hn c hc)
  have hws5 : ∀ c ∈ jsOrDash r.options, isWS c = false :=
    fun c hc => okChar_not_ws c (jsOrDash_chars _ ho c hc)
  obtain ⟨a, t1, he1⟩ := List.exists_cons_of_ne_nil hne1
  rw [he1]
  rw [List.cons_append]
  have hheada : isWS a = false := by
    apply hws1
    rw [he1]
    exact List.mem_cons_self a t1
  have hhash : a ≠ '#' := by
    revert he1
    cases hv : r.destination with
    | none =>
      intro he1
      have : a = '-' := by
        have h2 : jsOrDash none = ['-'] := rfl
        rw [h2] at he1
        exact ((List.cons.injEq a t1 '-' []).mp he1.symm).1
      rw [this]
      decide
    | some t =>
      intro he1
      have hjt : jsOrDash (some t) = t := by
        simp only [jsOrDash]
        rw [if_neg (hv ▸ hd).1]
      rw [hjt] at he1
      have hth : t.head? = some a := by rw [he1]; rfl
      have := hv ▸ hh
      intro e
      exact absurd (by rw [hth, e] : t.head? = some '#') this
  -- the whole line, in cons form
  have hlast : ∀ c, (a :: (t1 ++ ' ' :: (jsOrDash r.gateway ++ ' ' ::
      (jsOrDash r.netmask ++ ' ' :: ('-' :: ' ' :: jsOrDash r.options))))).getLast? = some c →
      isWS c = false := by
    intro c hc
    have hshape : (a :: (t1 ++ ' ' :: (jsOrDash r.gateway ++ ' ' ::
        (jsOrDash r.netmask ++ ' ' :: ('-' :: ' ' :: jsOrDash r.options)))))
        = (a :: t1 ++ ' ' :: jsOrDash r.gateway ++ ' ' :: jsOrDash r.netmask
            ++ [' ', '-', ' ']) ++ jsOrDash r.options := by
      simp [List.append_assoc]
    rw [hshape, List.getLast?_append_of_ne_nil _ hne5] at hc
    exact hws5 c (mem_of_getLast?_eq hc)
  have hhead : ∀ c, (a :: (t1 ++ ' ' :: (jsOrDash r.gateway ++ ' ' ::
      (jsOrDash r.netmask ++ ' ' :: ('-' :: ' ' :: jsOrDash r.options))))).head? = some c →
      isWS c = false := by
    intro c hc
    have : a = c := by
      have : some a = some c := hc
      exact Option.some.injEq a c ▸ this ▸ rfl
    rw [← this]
    exact hheada
  have htrim := trimWS_eq_self _ hhead hlast
  unfold lineToRoute
  simp only [htrim]
  rw [if_neg (by
    intro hcontra
    have : a = '#' := by
      have : some a = some '#' := hcontra
      exact (Option.some.injEq a '#').mp this
    exact hhash this)]
  rw [if_neg (by simp)]
  have hsplit : splitEvery (a :: (t1 ++ ' ' :: (jsOrDash r.gateway ++ ' ' ::
      (jsOrDash r.netmask ++ ' ' :: ('-' :: ' ' :: jsOrDash r.options)))))
      = [a :: t1, jsOrDash r.gateway, jsOrDash r.netmask, ['-'], jsOrDash r.options] := by
    rw [show (a :: (t1 ++ ' ' :: (jsOrDash r.gateway ++ ' ' ::
        (jsOrDash r.netmask ++ ' ' :: ('-' :: ' ' :: jsOrDash r.options)))))
        = (a :: t1) ++ ' ' :: (jsOrDash r.gateway ++ ' ' ::
          (jsOrDash r.netmask ++ ' ' :: ('-' :: ' ' :: jsOrDash r.options))) from rfl]
    rw [splitEvery_append (a :: t1) (by simp) (he1 ▸ hws1) _]
    rw [splitEvery_append _ hne2 hws2 _]
    rw [splitEvery_append _ hne3 hws3 _]
    rw [show ('-' :: ' ' :: jsOrDash r.options) = ['-'] ++ ' ' :: jsOrDash r.options from rfl]
    rw [splitEvery_append ['-'] (by simp) (by decide) _]
    rw [splitEvery_no_ws _ hne5 hws5]
  rw [hsplit]
  simp only [List.map_cons, List.map_nil, colAt, List.get?]
  rw [← he1]
  rw [jsOrDash_inv _ hd, jsOrDash_inv _ hg, jsOrDash_inv _ hn, jsOrDash_inv _ ho]
  simp

theorem parseRoutes_filterMap (text : List Char) :
    parseRoutes text = (splitLines (collapseAux false text)).filterMap lineToRoute := by
  rw [parseRoutes, parseRoutes_foldl]
  rfl

theorem encodeRoutes_cons (r r2 : Route) (rest : List Route) :
    encodeRoutes (r :: r2 :: rest) = encLine r ++ '\n' :: encodeRoutes (r2 :: rest) := by
  simp [encodeRoutes, joinWith]

theorem parseRoutes_encodeRoutes : ∀ (rs : List Route),
    (∀ r ∈ rs, okTok r.destination ∧ noHash r.destination ∧ okTok r.gateway ∧
      okTok r.netmask ∧ okTok r.options) →
    parseRoutes (encodeRoutes rs)
      = rs.map (fun r => ⟨r.destination, r.gateway, r.netmask, none, r.options⟩)
  | [], _ => by rfl
  | [r], h => by
    obtain ⟨hd, hh, hg, hn, ho⟩ := h r (by simp)
    rw [parseRoutes_filterMap]
    rw [show encodeRoutes [r] = encLine r from by simp [encodeRoutes, joinWith]]
    rw [splitLines_no_newline _ (collapse_encLine_no_newline r hd hg hn ho)]
    rw [List.filterMap_cons, lineToRoute_encLine r hd hh hg hn ho]
    rfl
  | r :: r2 :: rest, h => by
    obtain ⟨hd, hh, hg, hn, ho⟩ := h r (by simp)
    have ih := parseRoutes_encodeRoutes (r2 :: rest)
      (fun x hx => h x (List.mem_cons_of_mem r hx))
    rw [parseRoutes_filterMap] at ih ⊢
    rw [encodeRoutes_cons]
    rw [collapseAux_newline]
    rw [splitLines_append _ (collapse_encLine_no_newline r hd hg hn ho) _]
    rw [List.filterMap_cons, lineToRoute_encLine r hd hh hg hn ho]
    rw [List.map_cons]
    rw [← ih]

theorem decode_encode (device : Option (List Char)) (rs : List Route)
    (h : ∀ r ∈ rs, RouteOK device r) :
    decodeRoutes device (encodeRoutes rs) = rs := by
  rw [decodeRoutes_eq]
  rw [parseRoutes_encodeRoutes rs
    (fun r hr => ⟨(h r hr).1, (h r hr).2.1, (h r hr).2.2.1, (h r hr).2.2.2.1,
      (h r hr).2.2.2.2.1⟩)]
  rw [List.map_map]
  have : ∀ r ∈ rs, (scopeRoute device ∘ fun r : Route =>
      (⟨r.destination, r.gateway, r.netmask, none, r.options⟩ : Route)) r = id r := by
    intro r hr
    have hdev := (h r hr).2.2.2.2.2
    cases device with
    | none =>
      show (⟨r.destination, r.gateway, r.netmask, none, r.options⟩ : Route) = r
      rw [← hdev]
    | some d =>
      show (⟨r.destination, r.gateway, r.netmask, jsOrAssign none d, r.options⟩ : Route) = r
      rw [show jsOrAssign none d = some d from rfl, ← hdev]
  rw [List.map_congr_left this, List.map_id]

/-- C4: the round-trip property.  For every interface scope and input
text whose decoded routes are all well formed (each written column is a
non-empty placeholder-free token of surviving characters, the destination
does not begin a comment, and the device is exactly what the scope
reconstructs), decoding, re-encoding and decoding again returns the first
decode unchanged. -/
theorem c4_roundtrip (device : Option (List Char)) (text : List Char)
    (h : ∀ r ∈ decodeRoutes device text, RouteOK device r) :
    decodeRoutes device (encodeRoutes (decodeRoutes device text))
      = decodeRoutes device text :=
  decode_encode device (decodeRoutes device text) h

/-- C4 witness: the round trip evaluated at the specification's own
example input, with the well-formedness hypothesis checked by
computation. -/
theorem c4_roundtrip_witness :
    decodeRoutes none (encodeRoutes (decodeRoutes none
        ("10.0.0.0\t10.0.0.1\t255.255.255.0\t-\t-\n".toList)))
      = decodeRoutes none ("10.0.0.0\t10.0.0.1\t255.255.255.0\t-\t-\n".toList) :=
  c4_roundtrip none ("10.0.0.0\t10.0.0.1\t255.255.255.0\t-\t-\n".toList) (by decide)

theorem ipToSysconfigAux_eq (initialIndex : Nat) : ∀ (addrs : List AddressConfig) (n : Nat),
    ipToSysconfigAux initialIndex n addrs = specAddressEntries (n + initialIndex) addrs
  | [], _ => rfl
  | a :: rest, n => by
    simp only [ipToSysconfigAux, specAddressEntries, specAddressEntry, suffixFor]
    rw [ipToSysconfigAux_eq initialIndex rest (n + 1)]
    have he : n + 1 + initialIndex = n + initialIndex + 1 := by omega
    rw [he]

/-- C1: the flattened address numbering of the encoder.  The IPv4
addresses occupy indices `0 .. M-1` and the IPv6 addresses continue at
index `M` (the IPv4 address count) instead of restarting at 0; the key
suffix for index 0 is empty and for index `k > 0` it is `_k`, on both the
`IPADDR` and `LABEL` keys; a `LABEL` key is written exactly when the
address's label is non-empty. -/
theorem c1_address_numbering (c : Connection) :
    connectionToSysconfig c
      = ("NAME", some c.name) :: ("BOOTPROTO", some (bootProtoFor c)) ::
          ("STARTMODE", some c.startMode) ::
          ((specAddressEntries 0 c.ipv4.addresses
              ++ specAddressEntries c.ipv4.addresses.length c.ipv6.addresses)
            ++ bridgeToSysconfig c.bridge ++ bondToSysconfig c.bond
            ++ vlanToSysconfig c.vlan) := by
  unfold connectionToSysconfig addressesToSysconfig ipToSysconfig
  rw [ipToSysconfigAux_eq, ipToSysconfigAux_eq]
  simp

theorem bootProtoFor_eq_spec (c : Connection) : bootProtoFor c = specBootProto c := by
  unfold bootProtoFor specBootProto
  by_cases h4 : c.ipv4.bootProto = bootProtocol.DHCP <;>
    by_cases h6 : c.ipv6.bootProto = bootProtocol.DHCP <;>
      by_cases ha : c.ipv4.addresses = [] <;>
        by_cases hb : c.ipv6.addresses = [] <;>
          simp [h4, h6, ha, hb, List.length_pos]

/-- C2: the boot-protocol value written by the encoder is dhcp when both
families' boot protocols are dhcp, dhcp4 when only the ipv4 family's is,
dhcp6 when only the ipv6 family's is, static when neither family is dhcp
and at least one family has a non-empty address list, and none
otherwise. -/
theorem c2_bootproto (c : Connection) :
    connectionToSysconfig c
      = ("NAME", some c.name) :: ("BOOTPROTO", some (specBootProto c)) ::
          ("STARTMODE", some c.startMode) ::
          (addressesToSysconfig c ++ bridgeToSysconfig c.bridge ++ bondToSysconfig c.bond
            ++ vlanToSysconfig c.vlan) := by
  unfold connectionToSysconfig
  rw [bootProtoFor_eq_spec]

/-- C6: dispatching `UPDATE_CONNECTION` or `CONNECTION_ERROR` for a
connection whose name matches no interface does NOT leave the state
unchanged — the reducer throws a TypeError (modelled as `none`):
`UPDATE_CONNECTION` destructures the `undefined` lookup result and
`CONNECTION_ERROR` reads `.id` of it.  Evaluated at a store holding one
interface named `eth1` and a payload connection named `eth0`. -/
theorem c6_unknown_name_throws :
    networkReducer ⟨[(1, ⟨1, "eth1", none⟩)], [], []⟩
        (.updateConnection ⟨7, "eth0", "off", false, true,
          ⟨"none", []⟩, ⟨"none", []⟩, none, none, none⟩) = none
    ∧ networkReducer ⟨[(1, ⟨1, "eth1", none⟩)], [], []⟩
        (.connectionError ⟨7, "eth0", "off", false, true,
          ⟨"none", []⟩, ⟨"none", []⟩, none, none, none⟩ "backend failure") = none := by
  refine ⟨by decide, by decide⟩

/-- C7: `DELETE_CONNECTION` evaluated on a store holding the matching
interface.  For a virtual connection the connection and the interface are
both removed, as the claim says; for a non-virtual connection the
connection entry is removed but the interface entry is returned
completely unchanged — no status of any kind is set (this reducer's
interfaces carry no status field at all), contradicting the claim's
"status becomes in-progress". -/
theorem c7_delete_connection_eval :
    networkReducer
        ⟨[(1, ⟨1, "eth0", none⟩)],
          [(10, ⟨10, "eth0", "off", false, true,
            ⟨"none", []⟩, ⟨"none", []⟩, none, none, none⟩)], []⟩
        (.deleteConnection ⟨10, "eth0", "off", false, true,
          ⟨"none", []⟩, ⟨"none", []⟩, none, none, none⟩)
      = some ⟨[(1, ⟨1, "eth0", none⟩)], [], []⟩
    ∧ networkReducer
        ⟨[(2, ⟨2, "br0", none⟩)],
          [(20, ⟨20, "br0", "off", true, true,
            ⟨"none", []⟩, ⟨"none", []⟩, none, none, none⟩)], []⟩
        (.deleteConnection ⟨20, "br0", "off", true, true,
          ⟨"none", []⟩, ⟨"none", []⟩, none, none, none⟩)
      = some ⟨[], [], []⟩ := by
  refine ⟨by decide, by decide⟩

/-- C8: the delete operation does not satisfy the claim.  When the
backend `removeConnection` rejects, `deleteConnection` dispatches no
`CONNECTION_ERROR` (its `try`/`catch` guards only synchronous throws)
and the promise it returns rejects with the backend error instead of
resolving to the attempted Connection.  By contrast, the add and update
operations do resolve to the attempted Connection for every backend
outcome, as the claim states. -/
theorem c8_delete_backend_error_not_converted :
    deleteConnectionRun
        ⟨3, "eth0", "off", false, true, ⟨"none", []⟩, ⟨"none", []⟩, none, none, none⟩
        (Except.error "backend failure") (Except.ok ())
      = ([DispatchedAction.deleteConnection
          ⟨3, "eth0", "off", false, true, ⟨"none", []⟩, ⟨"none", []⟩, none, none, none⟩],
         Except.error "backend failure")
    ∧ (∀ (conn : Connection) (ex : Bool) (r1 r2 : Except String Unit),
        (addConnectionRun conn ex r1 r2).2 = Except.ok conn)
    ∧ (∀ (conn : Connection) (r1 r2 : Except String Unit),
        (updateConnectionRun conn r1 r2).2 = Except.ok conn) := by
  refine ⟨rfl, ?_, ?_⟩
  · intro conn ex r1 r2
    cases r1 <;> cases r2 <;> rfl
  · intro conn r1 r2
    cases r1 <;> cases r2 <;> rfl

theorem findIdxAux_some {α : Type} (p : α → Bool) : ∀ (l : List α) (i j : Nat),
    findIdxAux p l i = some j →
    i ≤ j ∧ ∃ y, l.get? (j - i) = some y ∧ p y = true
  | [], i, j, h => by simp [findIdxAux] at h
  | a :: as, i, j, h => by
    by_cases hp : p a
    · rw [findIdxAux, if_pos hp] at h
      have hj : i = j := by
        have := h
        simp at this
        exact this
      subst hj
      exact ⟨Nat.le_refl i, a, by simp, hp⟩
    · rw [findIdxAux, if_neg hp] at h
      obtain ⟨hle, y, hy, hpy⟩ := findIdxAux_some p as (i + 1) j h
      refine ⟨by omega, y, ?_, hpy⟩
      have harith : j - i = (j - (i + 1)) + 1 := by omega
      rw [harith]
      simpa using hy

theorem findIdxAux_total {α : Type} (p : α → Bool) : ∀ (l : List α) (x : α), x ∈ l →
    p x = true → ∀ (i : Nat), ∃ j, findIdxAux p l i = some j
  | [], x, hx, _, _ => absurd hx (by simp)
  | a :: as, x, hx, hp, i => by
    by_cases hpa : p a
    · exact ⟨i, by rw [findIdxAux, if_pos hpa]⟩
    · have hxas : x ∈ as := by
        rcases List.mem_cons.mp hx with rfl | hm
        · exact absurd hp hpa
        · exact hm
      obtain ⟨j, hj⟩ := findIdxAux_total p as x hxas hp (i + 1)
      exact ⟨j, by rw [findIdxAux, if_neg hpa]; exact hj⟩

theorem keepAddr_spec (coll : List AddressConfig) (addr : AddressConfig) (idx : Nat)
    (h : keepAddr coll addr idx = true) :
    blankLocal addr = false ∧ jsFindIndex coll (samePairB addr) = (idx : Int) := by
  unfold keepAddr at h
  by_cases hb : blankLocal addr
  · rw [if_pos hb] at h
    exact absurd h (by simp)
  · rw [if_neg hb] at h
    exact ⟨by simpa using hb, eq_of_beq h⟩

theorem sanitizeAux_mem (coll : List AddressConfig) : ∀ (l : List AddressConfig) (i : Nat)
    (x : AddressConfig), x ∈ sanitizeAux coll i l →
    ∃ j, i ≤ j ∧ keepAddr coll x j = true
  | [], i, x, h => absurd h (by simp [sanitizeAux])
  | a :: as, i, x, h => by
    by_cases hk : keepAddr coll a i
    · rw [sanitizeAux, if_pos hk] at h
      rcases List.mem_cons.mp h with rfl | hm
      · exact ⟨i, Nat.le_refl i, hk⟩
      · obtain ⟨j, hle, hkj⟩ := sanitizeAux_mem coll as (i + 1) x hm
        exact ⟨j, by omega, hkj⟩
    · rw [sanitizeAux, if_neg hk] at h
      obtain ⟨j, hle, hkj⟩ := sanitizeAux_mem coll as (i + 1) x h
      exact ⟨j, by omega, hkj⟩

theorem sanitizeAux_mem_intro (coll : List AddressConfig) : ∀ (l : List AddressConfig)
    (i k : Nat) (x : AddressConfig), l.get? k = some x → keepAddr coll x (i + k) = true →
    x ∈ sanitizeAux coll i l
  | [], _, k, _, h, _ => by simp at h
  | a :: as, i, 0, x, h, hk => by
    have hax : a = x := by simpa using h
    subst hax
    rw [sanitizeAux, if_pos (by simpa using hk)]
    exact List.mem_cons_self a _
  | a :: as, i, k + 1, x, h, hk => by
    have hget : as.get? k = some x := by simpa using h
    have hk' : keepAddr coll x ((i + 1) + k) = true := by
      have : (i + 1) + k = i + (k + 1) := by omega
      rw [this]
      exact hk
    have hmem := sanitizeAux_mem_intro coll as (i + 1) k x hget hk'
    by_cases hka : keepAddr coll a i
    · rw [sanitizeAux, if_pos hka]
      exact List.mem_cons_of_mem a hmem
    · rw [sanitizeAux, if_neg hka]
      exact hmem

theorem samePair_funext (x y : AddressConfig) (h1 : y.«local» = x.«local»)
    (h2 : y.label = x.label) : samePairB y = samePairB x := by
  funext item
  unfold samePairB
  rw [h1, h2]

theorem sanitizeAux_pairwise (coll : List AddressConfig) : ∀ (l : List AddressConfig) (i : Nat),
    (sanitizeAux coll i l).Pairwise
      (fun x y => ¬(x.«local» = y.«local» ∧ x.label = y.label))
  | [], _ => by simp [sanitizeAux]
  | a :: as, i => by
    by_cases hk : keepAddr coll a i
    · rw [sanitizeAux, if_pos hk]
      refine List.Pairwise.cons ?_ (sanitizeAux_pairwise coll as (i + 1))
      intro y hy hpair
      obtain ⟨j, hle, hkj⟩ := sanitizeAux_mem coll as (i + 1) y hy
      have ha := keepAddr_spec coll a i hk
      have hyj := keepAddr_spec coll y j hkj
      have hfe : samePairB y = samePairB a :=
        samePair_funext a y hpair.1.symm hpair.2.symm
      rw [hfe, ha.2] at hyj
      have : i = j := by
        have hcast : (i : Int) = (j : Int) := hyj.2
        exact_mod_cast hcast
      omega
    · rw [sanitizeAux, if_neg hk]
      exact sanitizeAux_pairwise coll as (i + 1)

/-- C9: `sanitize` (1) drops every entry whose `local` is absent or blank
after trimming; (2) leaves no two entries with an identical
`(local, label)` pair; and (3) for every non-blank entry of the input,
the FIRST occurrence of its `(local, label)` pair (the element at the
`findIndex` position) is retained. -/
theorem c9_sanitize (l : List AddressConfig) :
    (∀ x ∈ sanitize l, blankLocal x = false)
    ∧ (sanitize l).Pairwise (fun x y => ¬(x.«local» = y.«local» ∧ x.label = y.label))
    ∧ (∀ x ∈ l, blankLocal x = false →
        ∃ j y, findIdxAux (samePairB x) l 0 = some j ∧ l.get? j = some y ∧
          samePairB x y = true ∧ y ∈ sanitize l) := by
  refine ⟨?_, sanitizeAux_pairwise l l 0, ?_⟩
  · intro x hx
    obtain ⟨j, _, hk⟩ := sanitizeAux_mem l l 0 x hx
    exact (keepAddr_spec l x j hk).1
  · intro x hxl hxb
    have hpx : samePairB x x = true := by simp [samePairB]
    obtain ⟨j, hj⟩ := findIdxAux_total (samePairB x) l x hxl hpx 0
    obtain ⟨-, y, hy, hpy⟩ := findIdxAux_some (samePairB x) l 0 j hj
    rw [Nat.sub_zero] at hy
    refine ⟨j, y, hj, hy, hpy, ?_⟩
    apply sanitizeAux_mem_intro l l 0 j y hy
    have hploc : y.«local» = x.«local» ∧ y.label = x.label := by
      unfold samePairB at hpy
      simpa using hpy
    have hblanky : blankLocal y = false := by
      unfold blankLocal at hxb ⊢
      rw [hploc.1]
      exact hxb
    have hfe : samePairB y = samePairB x := samePair_funext x y hploc.1 hploc.2
    unfold keepAddr
    rw [if_neg (by rw [hblanky]; simp)]
    rw [hfe]
    unfold jsFindIndex
    rw [hj]
    simp

/-- C9 witness: the specification's duplicated-plus-blank example.  The
list holds the same address twice (same `local`, same `label`) and one
blank entry; applying the theorem shows a retained entry is non-blank and
that the first occurrence of the duplicated pair is retained. -/
theorem c9_sanitize_witness :
    blankLocal ⟨some "192.168.1.5", some ""⟩ = false
    ∧ (∃ j y,
        findIdxAux (samePairB ⟨some "192.168.1.5", some ""⟩)
          [⟨some "192.168.1.5", some ""⟩, ⟨some "192.168.1.5", some ""⟩,
            ⟨some "", some ""⟩] 0 = some j
        ∧ [(⟨some "192.168.1.5", some ""⟩ : AddressConfig),
            ⟨some "192.168.1.5", some ""⟩, ⟨some "", some ""⟩].get? j = some y
        ∧ samePairB ⟨some "192.168.1.5", some ""⟩ y = true
        ∧ y ∈ sanitize [⟨some "192.168.1.5", some ""⟩, ⟨some "192.168.1.5", some ""⟩,
            ⟨some "", some ""⟩]) :=
  ⟨(c9_sanitize [⟨some "192.168.1.5", some ""⟩, ⟨some "192.168.1.5", some ""⟩,
      ⟨some "", some ""⟩]).1 ⟨some "192.168.1.5", some ""⟩ (by decide),
   (c9_sanitize [⟨some "192.168.1.5", some ""⟩, ⟨some "192.168.1.5", some ""⟩,
      ⟨some "", some ""⟩]).2.2 ⟨some "192.168.1.5", some ""⟩ (by decide) (by decide)⟩
